import Mathlib

/-!
# Verification of the virtualenv discovery and wheel-acquisition core

Shallow embedding of the resolution logic of this repository:

* `src/virtualenv/seed/wheels/util.py` — `Wheel`, `discover_wheels`
* `src/virtualenv/seed/wheels/acquire.py` — `get_wheel`
* `src/virtualenv/seed/wheels/periodic_update.py` — `periodic_update`, `trigger_update`
* `src/virtualenv/discovery/py_info.py` — `PythonInfo.satisfies`, `PythonInfo.from_exe`
* `src/virtualenv/discovery/builtin.py` — `get_interpreter`

Filesystem access, subprocess spawning and JSON parsing are modelled as
explicit inputs (oracle parameters and inductive result types); Python code
that raises an exception is modelled with `Option`/`Except`. All definitions
are computable and kernel-reducible so that concrete witnesses evaluate by
`decide`.
-/

namespace Virtualenv

/-! ## Strings

Python compares strings lexicographically by code point. `charListLe` is that
order on the character lists of two strings, written with `Char.toNat`
comparisons so the kernel can evaluate it. -/

/-- Lexicographic (code-point) order on character lists: Python's `str` order. -/
def charListLe : List Char → List Char → Bool
  | [], _ => true
  | _ :: _, [] => false
  | a :: as, b :: bs =>
    if a.toNat < b.toNat then true
    else if b.toNat < a.toNat then false
    else charListLe as bs

/-- Python's `s <= t` on strings. -/
def strLe (a b : String) : Bool :=
  charListLe a.toList b.toList

theorem charListLe_total : ∀ as bs, charListLe as bs = true ∨ charListLe bs as = true
  | [], _ => Or.inl rfl
  | _ :: _, [] => Or.inr rfl
  | a :: as, b :: bs => by
    simp only [charListLe]
    rcases Nat.lt_trichotomy a.toNat b.toNat with h | h | h
    · left; simp [h]
    · have h' : ¬ a.toNat < b.toNat := by omega
      have h'' : ¬ b.toNat < a.toNat := by omega
      simpa [h', h''] using charListLe_total as bs
    · right; simp [h]

theorem charListLe_trans :
    ∀ as bs cs, charListLe as bs = true → charListLe bs cs = true → charListLe as cs = true
  | [], _, _, _, _ => rfl
  | _ :: _, [], _, h, _ => by simp [charListLe] at h
  | _ :: _, _ :: _, [], _, h => by simp [charListLe] at h
  | a :: as, b :: bs, c :: cs, h₁, h₂ => by
    simp only [charListLe] at h₁ h₂ ⊢
    rcases Nat.lt_trichotomy a.toNat b.toNat with hab | hab | hab
    · rcases Nat.lt_trichotomy b.toNat c.toNat with hbc | hbc | hbc
      · have hac : a.toNat < c.toNat := by omega
        simp [hac]
      · have hac : a.toNat < c.toNat := by omega
        simp [hac]
      · have h3 : ¬ b.toNat < c.toNat := by omega
        simp [h3, hbc] at h₂
    · rcases Nat.lt_trichotomy b.toNat c.toNat with hbc | hbc | hbc
      · have hac : a.toNat < c.toNat := by omega
        simp [hac]
      · have hac : ¬ a.toNat < c.toNat := by omega
        have hca : ¬ c.toNat < a.toNat := by omega
        have h1 : ¬ a.toNat < b.toNat := by omega
        have h2 : ¬ b.toNat < a.toNat := by omega
        have h3 : ¬ b.toNat < c.toNat := by omega
        have h4 : ¬ c.toNat < b.toNat := by omega
        simp only [if_neg h1, if_neg h2] at h₁
        simp only [if_neg h3, if_neg h4] at h₂
        simp only [if_neg hac, if_neg hca]
        exact charListLe_trans as bs cs h₁ h₂
      · have h3 : ¬ b.toNat < c.toNat := by omega
        simp [h3, hbc] at h₂
    · have h1 : ¬ a.toNat < b.toNat := by omega
      simp [h1, hab] at h₁

theorem strLe_total (a b : String) : strLe a b = true ∨ strLe b a = true :=
  charListLe_total _ _

theorem strLe_trans {a b c : String} (h₁ : strLe a b = true) (h₂ : strLe b c = true) :
    strLe a c = true :=
  charListLe_trans _ _ _ h₁ h₂

/-- Python `str.split(sep)` for a one-character separator: splits into the (always
non-empty) list of fields between occurrences of `sep`. -/
def splitOnChar (sep : Char) : List Char → List (List Char)
  | [] => [[]]
  | c :: cs =>
    let r := splitOnChar sep cs
    if c == sep then [] :: r else
      match r with
      | [] => [[c]]
      | h :: t => (c :: h) :: t

/-- Python `str.split` on strings, one-character separator. -/
def pySplit (s : String) (sep : Char) : List String :=
  (splitOnChar sep s.toList).map List.asString

theorem splitOnChar_ne_nil (sep : Char) : ∀ cs, splitOnChar sep cs ≠ []
  | [] => by simp [splitOnChar]
  | c :: cs => by
    simp only [splitOnChar]
    split
    · simp
    · match h : splitOnChar sep cs with
      | [] => simp
      | _ :: _ => simp

theorem pySplit_ne_nil (s : String) (sep : Char) : pySplit s sep ≠ [] := by
  simp only [pySplit, ne_eq, List.map_eq_nil_iff]
  exact splitOnChar_ne_nil sep _

/-! ## Paths and wheel filenames (`seed/wheels/util.py`)

A filesystem path is modelled by its final component (`pathlib.Path.name`);
that is the only part of a path the wheel logic ever inspects. -/

/-- A filesystem path, reduced to its filename component. -/
structure PyPath where
  name : String
deriving DecidableEq, Repr

/-- Index of the last character satisfying `p`, if any. -/
def findLastIdx (p : Char → Bool) : List Char → Option Nat
  | [] => none
  | c :: cs =>
    match findLastIdx p cs with
    | some i => some (i + 1)
    | none => if p c then some 0 else none

/-- Python `pathlib.PurePath.suffix`: the final `.`-extension of the name, when the
last dot sits at position `0 < i < len - 1`; empty otherwise. -/
def pathSuffix (p : PyPath) : String :=
  let cs := p.name.toList
  match findLastIdx (fun c => c == '.') cs with
  | some i => if 0 < i ∧ i < cs.length - 1 then (cs.drop i).asString else ""
  | none => ""

/-- Python `pathlib.PurePath.stem`: the name with `pathSuffix` removed. -/
def pathStem (p : PyPath) : String :=
  let cs := p.name.toList
  match findLastIdx (fun c => c == '.') cs with
  | some i => if 0 < i ∧ i < cs.length - 1 then (cs.take i).asString else p.name
  | none => p.name

/-- Source `Wheel.__init__`: stores the path; `_parts = path.stem.split('-')`. -/
structure Wheel where
  path : PyPath
deriving DecidableEq, Repr

/-- The `_parts` field computed by `Wheel.__init__`: the stem split on hyphens
(`str.split` always returns a non-empty list). -/
def Wheel.parts (w : Wheel) : List String :=
  pySplit (pathStem w.path) '-'

/-- Source `Wheel.name`: `self._parts[0]`. The split list is never empty, so the
Python indexing always succeeds; `headD` with an unreachable default. -/
def Wheel.name (w : Wheel) : String :=
  w.parts.headD ""

/-- Source `Wheel.version` as actually executed: `self._parts[1]`, which raises
`IndexError` when the stem has fewer than two hyphen-delimited fields.
`none` models the raised `IndexError`. -/
def Wheel.version? (w : Wheel) : Option String :=
  w.parts.get? 1

/-- Total proxy for `Wheel.version` used by the comparison/sorting code paths;
it agrees with Python exactly on wheels whose stem has at least two
hyphen-delimited fields (`wheelWellFormed`), the only inputs on which the
theorems below rely on it. -/
def Wheel.version (w : Wheel) : String :=
  w.version?.getD ""

/-- Source `Wheel.filename`: `self.path.name`. -/
def Wheel.filename (w : Wheel) : String :=
  w.path.name

/-- A wheel path whose `version` access does not raise in Python: the stem has
at least two hyphen-delimited fields. -/
def wheelWellFormed (p : PyPath) : Bool :=
  2 ≤ (pySplit (pathStem p) '-').length

/-- Descending version-string order, the sort order of
`sorted(wheels, key=attrgetter('version'), reverse=True)`. -/
def wheelVersionDescR (a b : Wheel) : Prop :=
  strLe b.version a.version = true

instance : DecidableRel wheelVersionDescR := fun _ _ => by
  unfold wheelVersionDescR; infer_instance

instance : IsTotal Wheel wheelVersionDescR :=
  ⟨fun a b => (strLe_total b.version a.version).elim Or.inl Or.inr⟩

instance : IsTrans Wheel wheelVersionDescR :=
  ⟨fun _ _ _ h₁ h₂ => strLe_trans h₂ h₁⟩

/-- Source `discover_wheels(folder, distribution)`: keep the `.whl` entries whose
first stem field equals `distribution`, then sort by version string,
descending. The folder is modelled by its entries in iteration order.
Python's `sorted` is a stable sort; `List.insertionSort` is stable and a
stable sort under a total preorder is unique, so it is the same function. -/
def discover_wheels (folder : List PyPath) (distribution : String) : List Wheel :=
  let wheels := ((folder.filter fun p => pathSuffix p == ".whl").map Wheel.mk).filter
    fun w => w.name == distribution
  List.insertionSort wheelVersionDescR wheels

/-! Numeric (release-segment) reading of a version string, used only to state
what the specification's "newest version first" means. -/

/-- Python `int(s)` for a decimal digit string, `0` for anything `int` would reject. -/
def pyIntOrZero (cs : List Char) : Nat :=
  if !cs.isEmpty && cs.all Char.isDigit then
    cs.foldl (fun n c => n * 10 + (c.toNat - 48)) 0
  else 0

/-- The numeric components of a dotted version string. -/
def numericVersion (v : String) : List Nat :=
  (splitOnChar '.' v.toList).map pyIntOrZero

/-- Strict lexicographic order on numeric version components. -/
def numericVersionLt : List Nat → List Nat → Bool
  | [], [] => false
  | [], _ :: _ => true
  | _ :: _, [] => false
  | a :: as, b :: bs => if a < b then true else if b < a then false else numericVersionLt as bs

/-- Boolean pairwise-sortedness of a list under `r`. -/
def pairwiseB (r : α → α → Bool) : List α → Bool
  | [] => true
  | a :: rest => rest.all (r a) && pairwiseB r rest

/-- The specification's reading of the `discover_wheels` order: every earlier
wheel has a numeric version at least as new as every later one
("newest version first"). -/
def newestFirstNumeric (ws : List Wheel) : Bool :=
  pairwiseB (fun a b => !numericVersionLt (numericVersion a.version) (numericVersion b.version)) ws

/-! ## Wheel acquisition (`seed/wheels/acquire.py`)

`get_wheel` is effectful only through `download_wheel` (a pip subprocess) and
`from_bundle`; both are modelled as oracle values giving the path they would
return (`none` = miss). The update-log append performed after a successful
download does not influence the returned value and is omitted. The second
component of the result records whether the download tier was invoked. -/

/-- The inner loop of `get_wheel`'s local tier: first wheel in the list whose
version string equals `version`, returning its path. -/
def firstExactMatch (version : String) : List Wheel → Option PyPath
  | [] => none
  | w :: ws => if w.version == version then some w.path else firstExactMatch version ws

/-- The local-search tier of `get_wheel`: scan each search directory in order
with `discover_wheels`, returning the first exact version match. -/
def searchLocal (distribution version : String) : List (List PyPath) → Option PyPath
  | [] => none
  | d :: ds =>
    match firstExactMatch version (discover_wheels d distribution) with
    | some p => some p
    | none => searchLocal distribution version ds

/-- Source `get_wheel(distribution, version, for_py_version, search_dirs, download,
app_data, do_periodic_update, env)`: local tier, then download (when
`download`), then bundle. Returns the resolved path (`none` = not found) and
whether the download tier ran. -/
def get_wheel (distribution version : String) (searchDirs : List (List PyPath))
    (download : Bool) (downloadResult : Option PyPath) (bundleResult : Option PyPath) :
    Option PyPath × Bool :=
  match searchLocal distribution version searchDirs with
  | some p => (some p, false)
  | none =>
    if download then
      match downloadResult with
      | some wp => (some wp, true)
      | none => (bundleResult, true)
    else (bundleResult, false)

/-! ## Periodic update scheduling (`seed/wheels/periodic_update.py`)

Timestamps are integers (seconds); the `timedelta` constants are in seconds.
The on-disk update log is modelled as `UpdateLogFile`: absent, present but
containing malformed JSON, or parsed. `periodic_update` returns whether
`trigger_update` is invoked. -/

/-- Constant `UPDATE_PERIOD = timedelta(days=14)`, in seconds. -/
def UPDATE_PERIOD : Int := 14 * 24 * 60 * 60

/-- Constant `UPDATE_ABORTED_DELAY = timedelta(hours=1)`, in seconds. -/
def UPDATE_ABORTED_DELAY : Int := 60 * 60

/-- The `started`/`completed` fields of the update-log JSON document, after
`load_datetime` (absent keys load as `None`). -/
structure UpdateLogData where
  started : Option Int
  completed : Option Int
deriving DecidableEq, Repr

/-- The state of the on-disk update-log file as `periodic_update` finds it. -/
inductive UpdateLogFile
  | missing
  | malformed
  | parsed (data : UpdateLogData)
deriving DecidableEq, Repr

/-- The decision block of `periodic_update` after `json.load`: lines 114-121 of
`periodic_update.py`. -/
def updateDecision (now : Int) (data : UpdateLogData) : Bool :=
  match data.completed with
  | none =>
    match data.started with
    | none => true
    | some started => decide (now - started > UPDATE_ABORTED_DELAY)
  | some completed => decide (now - completed > UPDATE_PERIOD)

/-- Source `periodic_update(distribution, for_py_version)`: returns `true` exactly
when the code calls `trigger_update`. A missing log file triggers; a
`json.JSONDecodeError` is caught and replaced by the empty document `{}`
(whose `started`/`completed` both load as `None`). -/
def periodic_update (now : Int) (logFile : UpdateLogFile) : Bool :=
  match logFile with
  | .missing => true
  | .malformed => updateDecision now { started := none, completed := none }
  | .parsed data => updateDecision now data

/-- Process-level effects of `trigger_update`: `Popen` spawns the detached
upgrade process, `wait` is `process.communicate()`, which blocks the caller
until that process exits. -/
inductive ProcEvent
  | popen (cmd : List String)
  | wait
deriving DecidableEq, Repr

/-- The effect trace of `trigger_update(distribution, for_py_version)`
(lines 85-92 of `periodic_update.py`): build `cmd`, spawn it with `Popen`,
then call `process.communicate()`. -/
def trigger_update (pyExecutable : String) : List ProcEvent :=
  [ProcEvent.popen [pyExecutable, "-m", "virtualenv", "--upgrade-embed-wheels"],
   ProcEvent.wait]

/-- A trace blocks the invoking process on the spawned child iff it contains a
`wait` on that child. -/
def blocksOnChild (events : List ProcEvent) : Bool :=
  events.any fun e => e == ProcEvent.wait

/-! ## Interpreter facts (`discovery/py_info.py`)

`PythonInfo` carries many introspected fields; only the ones consulted by
`satisfies`, `from_exe` and `get_interpreter` are modelled (implementation,
version tuple, architecture, executable). The remaining fields are opaque
payload carried along by the probe oracle and never branched on by the code
under verification. -/

/-- Python `sys.version_info`-shaped tuple; `satisfies` reads components through the
`our is not None` guard, so the numeric components are optional. -/
structure VersionInfo where
  major : Option Nat
  minor : Option Nat
  micro : Option Nat
deriving DecidableEq, Repr

/-- The interpreter fact sheet (the fields of `PythonInfo` the verified logic
inspects). -/
structure PythonInfo where
  implementation : String
  version_info : VersionInfo
  architecture : Nat
  executable : String
deriving DecidableEq, Repr

/-- Modelled from the spec: `PythonSpec` (its module
`src/virtualenv/discovery/py_spec.py` is not under `src/`). Spec §3:
"implementation family (optional string), major/minor/micro version
components (each optional integer), architecture (optional 32/64), explicit
path (optional). Immutable once constructed." The filename pattern it derives
is kept abstract (a predicate parameter of the discovery functions). -/
structure PythonSpec where
  implementation : Option String
  major : Option Nat
  minor : Option Nat
  micro : Option Nat
  architecture : Option Nat
  path : Option String
deriving DecidableEq, Repr

/-- One iteration of the version loop in `satisfies`:
`req is not None and our is not None and our != req` rejects. -/
def versionComponentOk (our req : Option Nat) : Bool :=
  match req, our with
  | some r, some o => o == r
  | _, _ => true

/-- Source `PythonInfo.satisfies(spec, impl_must_match)` (lines 131-140 of
`py_info.py`). -/
def PythonInfo.satisfies (self : PythonInfo) (spec : PythonSpec) (impl_must_match : Bool) : Bool :=
  if (match spec.implementation with
      | some impl => impl_must_match && impl != self.implementation
      | none => false) then false
  else if (match spec.architecture with
      | some arch => arch != self.architecture
      | none => false) then false
  else
    versionComponentOk self.version_info.major spec.major &&
    versionComponentOk self.version_info.minor spec.minor &&
    versionComponentOk self.version_info.micro spec.micro

/-- The process-wide `PythonInfo._cache_exe_discovery` dictionary: executable
path → facts, or `none` for a recorded probe failure. -/
abbrev ExeCache := List (String × Option PythonInfo)

/-- The outcome of one `from_exe` call: the returned value (`Except.error` =
a raised exception), the cache afterwards, and how many probe attempts
(constructions of the fact sheet, `cls()`) the call performed. -/
structure FromExeOutcome where
  result : Except Unit (Option PythonInfo)
  cache : ExeCache
  probeAttempts : Nat
deriving Repr

/-- Source `PythonInfo.from_exe(exe, app_data, raise_on_error, ignore_cache, ...)`
(lines 165-188 of `py_info.py`). `construct` is the oracle for the probe body
`cls()` at this call site; on success the code sets `info.executable = exe`,
caches and returns the info; on failure it caches the failure marker `None`
and raises or returns `None` according to `raise_on_error`. A cache hit
returns the cached value, except that a cached failure re-raises when
`raise_on_error` is set. -/
def PythonInfo.from_exe (construct : Except Unit PythonInfo) (exe : String)
    (raise_on_error : Bool) (ignore_cache : Bool) (cache : ExeCache) : FromExeOutcome :=
  match (if ignore_cache then none else cache.lookup exe) with
  | some result =>
    if result.isSome || !raise_on_error then
      { result := .ok result, cache := cache, probeAttempts := 0 }
    else
      { result := .error (), cache := cache, probeAttempts := 0 }
  | none =>
    match construct with
    | .ok info =>
      let cached := { info with executable := exe }
      { result := .ok (some cached), cache := (exe, some cached) :: cache, probeAttempts := 1 }
    | .error _ =>
      { result := if raise_on_error then .error () else .ok none,
        cache := (exe, none) :: cache, probeAttempts := 1 }

/-! ## Discovery (`discovery/builtin.py`)

`get_interpreter` with no explicit path walks the `PATH` directories in
order. A directory is a list of entries in iteration order; `path_exe_finder`
filters out directories, non-executable files and entries whose `stat` raised
`OSError`, then applies the spec-derived filename pattern (abstract predicate
`pattern`; this code always yields `strict = True` with each match). The
probe (`PythonInfo.from_exe`) is abstracted as `probe : String → Option
PythonInfo`, `none` meaning no usable facts were obtained. -/

/-- One directory entry as seen by `path_exe_finder`. -/
structure DirEntry where
  name : String
  isDir : Bool
  isExe : Bool
  statError : Bool
deriving DecidableEq, Repr

/-- Source `path_exe_finder(spec)` applied to one directory: the candidate filenames
it yields, in order. -/
def path_exe_finder (pattern : String → Bool) (dir : List DirEntry) : List String :=
  (dir.filter fun e => !e.statError && !e.isDir && e.isExe && pattern e.name).map (·.name)

/-- The inner loop of `get_interpreter`: probe each yielded candidate and
return the first whose facts satisfy the spec (`strict` is `True` for every
candidate this finder yields). -/
def firstSatisfying (probe : String → Option PythonInfo) (spec : PythonSpec) :
    List String → Option PythonInfo
  | [] => none
  | exe :: rest =>
    match probe exe with
    | some info => if info.satisfies spec true then some info else firstSatisfying probe spec rest
    | none => firstSatisfying probe spec rest

/-- The directory loop of `get_interpreter`. -/
def searchPathDirs (probe : String → Option PythonInfo) (pattern : String → Bool)
    (spec : PythonSpec) : List (List DirEntry) → Option PythonInfo
  | [] => none
  | dir :: rest =>
    match firstSatisfying probe spec (path_exe_finder pattern dir) with
    | some info => some info
    | none => searchPathDirs probe pattern spec rest

/-- Source `get_interpreter(app_data, spec, env)` (lines 67-88 of `builtin.py`).
`paths` is the parsed `PATH` list; `pathExists` models `Path.exists`. With an
explicit spec path the candidate is probed directly, without a satisfaction
check; otherwise the directories are scanned in order. -/
def get_interpreter (probe : String → Option PythonInfo) (pathExists : String → Bool)
    (pattern : String → Bool) (spec : PythonSpec) (paths : List (List DirEntry)) :
    Option PythonInfo :=
  match spec.path with
  | some p => if pathExists p then probe p else none
  | none => searchPathDirs probe pattern spec paths

/-! ## Supporting lemmas -/

theorem take2_determines : ∀ (l m : List String), l.take 2 = m.take 2 →
    l.headD "" = m.headD "" ∧ l.get? 1 = m.get? 1 := by
  intro l m h
  match l, m with
  | [], [] => simp
  | [], _ :: _ => simp [List.take] at h
  | _ :: _, [] => simp [List.take] at h
  | [_], [_] =>
    simp [List.take] at h
    simp [h]
  | [_], _ :: _ :: _ => simp [List.take] at h
  | _ :: _ :: _, [_] => simp [List.take] at h
  | _ :: _ :: _, _ :: _ :: _ =>
    simp [List.take] at h
    simp [h.1, h.2]

/-! ## Claim theorems -/

/-- C7: Artifact descriptor round-trip. Constructing a `Wheel` from
`pkg-1.2.3-py3-none-any.whl` yields name `pkg` and version `1.2.3`, and the
name/version are determined by the first two hyphen-delimited fields of the
stem alone: two paths whose stems agree on those two fields produce equal
names and versions. (The model contains no archive contents at all, mirroring
that construction never opens the archive.) -/
theorem wheel_roundtrip :
    (Wheel.mk ⟨"pkg-1.2.3-py3-none-any.whl"⟩).name = "pkg" ∧
    (Wheel.mk ⟨"pkg-1.2.3-py3-none-any.whl"⟩).version? = some "1.2.3" ∧
    ∀ p q : PyPath, (pySplit (pathStem p) '-').take 2 = (pySplit (pathStem q) '-').take 2 →
      (Wheel.mk p).name = (Wheel.mk q).name ∧ (Wheel.mk p).version? = (Wheel.mk q).version? :=
  ⟨by decide, by decide, fun p q h => take2_determines _ _ h⟩

/-- Witness for C7 at concrete filenames: the round-trip values, and two
wheels differing only after the second hyphen field have the same name and
version. -/
theorem wheel_roundtrip_witness :
    (Wheel.mk ⟨"pkg-1.2.3-py3-none-any.whl"⟩).name = "pkg" ∧
    (Wheel.mk ⟨"pkg-1.2.3-py3-none-any.whl"⟩).version? = some "1.2.3" ∧
    (Wheel.mk ⟨"pkg-1.2.3-py3-none-any.whl"⟩).name = (Wheel.mk ⟨"pkg-1.2.3-cp39-cp39-linux.whl"⟩).name ∧
    (Wheel.mk ⟨"pkg-1.2.3-py3-none-any.whl"⟩).version? = (Wheel.mk ⟨"pkg-1.2.3-cp39-cp39-linux.whl"⟩).version? :=
  ⟨wheel_roundtrip.1, wheel_roundtrip.2.1,
   (wheel_roundtrip.2.2 ⟨"pkg-1.2.3-py3-none-any.whl"⟩ ⟨"pkg-1.2.3-cp39-cp39-linux.whl"⟩ (by decide)).1,
   (wheel_roundtrip.2.2 ⟨"pkg-1.2.3-py3-none-any.whl"⟩ ⟨"pkg-1.2.3-cp39-cp39-linux.whl"⟩ (by decide)).2⟩

/-- C10: Unvalidated artifact filename shape. Construction succeeds for every
path (the stem is merely split on hyphens — all functions below are total in
the path): the split always starts with `Wheel.name`, so `name` is defined
even when it is the entire stem (concretely `pip.whl`), while `version`
(`_parts[1]`) raises `IndexError` — modelled by `version? = none` — exactly
when the stem has fewer than two hyphen-delimited fields; no field-count
validation precedes the indexing. -/
theorem wheel_unvalidated_shape :
    (∀ p : PyPath, ∃ rest, pySplit (pathStem p) '-' = (Wheel.mk p).name :: rest) ∧
    (∀ p : PyPath, (Wheel.mk p).version? = none ↔ (pySplit (pathStem p) '-').length < 2) ∧
    (Wheel.mk ⟨"pip.whl"⟩).name = pathStem ⟨"pip.whl"⟩ ∧
    (Wheel.mk ⟨"pip.whl"⟩).version? = none := by
  refine ⟨fun p => ?_, fun p => ?_, by decide, by decide⟩
  · match h : pySplit (pathStem p) '-' with
    | [] => exact absurd h (pySplit_ne_nil _ _)
    | a :: rest =>
      refine ⟨rest, ?_⟩
      simp [Wheel.name, Wheel.parts, h]
  · simp only [Wheel.version?, Wheel.parts, List.get?_eq_none]
    omega

/-- C8: Corrupt update-log tolerance. A log file whose contents are malformed
JSON is caught (`json.JSONDecodeError`) and replaced by the empty document,
which has neither `started` nor `completed`, so `periodic_update` runs to a
refresh trigger instead of raising (the embedding of the handler is total). -/
theorem periodic_update_malformed_triggers :
    ∀ now : Int, periodic_update now .malformed = true :=
  fun _ => rfl

/-- C9 (code behaviour at the failing input): `trigger_update` spawns the
upgrade process with `Popen` but then calls `process.communicate()`, which
waits for the spawned process to exit — the triggering call blocks on the
refresh work, for every interpreter executable. -/
theorem trigger_update_blocks :
    ∀ py : String,
      (∃ cmd, ProcEvent.popen cmd ∈ trigger_update py) ∧
      ProcEvent.wait ∈ trigger_update py ∧
      blocksOnChild (trigger_update py) = true :=
  fun py => ⟨⟨[py, "-m", "virtualenv", "--upgrade-embed-wheels"], by simp [trigger_update]⟩,
    by simp [trigger_update], rfl⟩

/-- C3: Periodic scheduler go/no-go decision. A refresh is triggered exactly
when the log is missing, or `completed` is unset and `started` is unset or
more than `UPDATE_ABORTED_DELAY` (1h) old, or `completed` is more than
`UPDATE_PERIOD` (14 days) old; concretely, `completed` 20 days ago triggers
and 2 days ago does not, `started` 30 minutes ago (no `completed`) does not
re-trigger and 2 hours ago does. -/
theorem periodic_update_decision_characterisation :
    (∀ now : Int, periodic_update now .missing = true) ∧
    (∀ (now : Int) (data : UpdateLogData),
      periodic_update now (.parsed data) = true ↔
        (data.completed = none ∧ (data.started = none ∨
           ∃ s, data.started = some s ∧ now - s > UPDATE_ABORTED_DELAY)) ∨
        (∃ c, data.completed = some c ∧ now - c > UPDATE_PERIOD)) ∧
    (∀ (now : Int) (s : Option Int),
      periodic_update now (.parsed ⟨s, some (now - 20 * 24 * 60 * 60)⟩) = true) ∧
    (∀ (now : Int) (s : Option Int),
      periodic_update now (.parsed ⟨s, some (now - 2 * 24 * 60 * 60)⟩) = false) ∧
    (∀ now : Int, periodic_update now (.parsed ⟨some (now - 30 * 60), none⟩) = false) ∧
    (∀ now : Int, periodic_update now (.parsed ⟨some (now - 2 * 60 * 60), none⟩) = true) := by
  refine ⟨fun _ => rfl, fun now data => ?_, fun now s => ?_, fun now s => ?_, fun now => ?_,
    fun now => ?_⟩
  · cases data with
    | mk started completed =>
      cases completed with
      | none =>
        cases started with
        | none => simp [periodic_update, updateDecision]
        | some s => simp [periodic_update, updateDecision]
      | some c => simp [periodic_update, updateDecision]
  · simp only [periodic_update, updateDecision, UPDATE_PERIOD, decide_eq_true_eq]
    omega
  · simp only [periodic_update, updateDecision, UPDATE_PERIOD, decide_eq_false_iff_not]
    omega
  · simp only [periodic_update, updateDecision, UPDATE_ABORTED_DELAY, decide_eq_false_iff_not]
    omega
  · simp only [periodic_update, updateDecision, UPDATE_ABORTED_DELAY, decide_eq_true_eq]
    omega

/-! ## C5: `satisfies` as a monotone pure conjunction -/

/-- The specification's reading of `satisfies`: a conjunction of optional
equality checks — family equality only when the spec names a family and
strict matching is demanded, architecture equality only when specified, and
each version component's equality only when both sides carry it. No ordering
comparison appears anywhere in it. -/
def satisfiesConj (self : PythonInfo) (spec : PythonSpec) (impl_must_match : Bool) : Bool :=
  (match spec.implementation with
   | some impl => !impl_must_match || impl == self.implementation
   | none => true) &&
  (match spec.architecture with
   | some arch => arch == self.architecture
   | none => true) &&
  versionComponentOk self.version_info.major spec.major &&
  versionComponentOk self.version_info.minor spec.minor &&
  versionComponentOk self.version_info.micro spec.micro

/-- Relation: `spec₂` adds exactly one previously-absent constraint to `spec₁`. -/
def tightensOne (s₁ s₂ : PythonSpec) : Prop :=
  (s₁.implementation = none ∧ ∃ v, s₂ = { s₁ with implementation := some v }) ∨
  (s₁.architecture = none ∧ ∃ v, s₂ = { s₁ with architecture := some v }) ∨
  (s₁.major = none ∧ ∃ v, s₂ = { s₁ with major := some v }) ∨
  (s₁.minor = none ∧ ∃ v, s₂ = { s₁ with minor := some v }) ∨
  (s₁.micro = none ∧ ∃ v, s₂ = { s₁ with micro := some v })

theorem satisfies_eq_conj (self : PythonInfo) (spec : PythonSpec) (impl_must_match : Bool) :
    self.satisfies spec impl_must_match = satisfiesConj self spec impl_must_match := by
  unfold PythonInfo.satisfies satisfiesConj
  cases spec.implementation with
  | none =>
    cases spec.architecture with
    | none => simp
    | some arch => cases h : arch == self.architecture <;> simp_all [bne]
  | some impl =>
    cases impl_must_match <;> cases spec.architecture with
    | none =>
      cases h : impl == self.implementation <;> simp_all [bne, Bool.and_assoc]
    | some arch =>
      cases h : impl == self.implementation <;> cases h' : arch == self.architecture <;>
        simp_all [bne, Bool.and_assoc]

/-- C5: `satisfies` is a monotone pure conjunction: it equals the conjunction
of optional equality checks `satisfiesConj` (so no ordering or range
comparison is used), and adding one previously-absent constraint to a spec
never grows the set of satisfying interpreter facts. -/
theorem satisfies_monotone_conjunction :
    (∀ (self : PythonInfo) (spec : PythonSpec) (impl_must_match : Bool),
      self.satisfies spec impl_must_match = satisfiesConj self spec impl_must_match) ∧
    (∀ (s₁ s₂ : PythonSpec) (self : PythonInfo) (impl_must_match : Bool),
      tightensOne s₁ s₂ → self.satisfies s₂ impl_must_match = true →
        self.satisfies s₁ impl_must_match = true) := by
  refine ⟨satisfies_eq_conj, fun s₁ s₂ self impl_must_match ht h₂ => ?_⟩
  rw [satisfies_eq_conj] at h₂ ⊢
  unfold satisfiesConj at h₂ ⊢
  rcases ht with ⟨h₀, v, rfl⟩ | ⟨h₀, v, rfl⟩ | ⟨h₀, v, rfl⟩ | ⟨h₀, v, rfl⟩ | ⟨h₀, v, rfl⟩ <;>
    simp_all [versionComponentOk]

/-- Witness for C5: tightening the all-absent spec by pinning `major := 3`
shrinks (here: preserves) satisfaction for a CPython 3.11 fact sheet. -/
theorem satisfies_monotone_conjunction_witness :
    PythonInfo.satisfies
      { implementation := "CPython", version_info := ⟨some 3, some 11, some 4⟩,
        architecture := 64, executable := "/usr/bin/python3" }
      { implementation := none, major := none, minor := none, micro := none,
        architecture := none, path := none } true = true :=
  satisfies_monotone_conjunction.2
    { implementation := none, major := none, minor := none, micro := none,
      architecture := none, path := none }
    { implementation := none, major := some 3, minor := none, micro := none,
      architecture := none, path := none }
    { implementation := "CPython", version_info := ⟨some 3, some 11, some 4⟩,
      architecture := 64, executable := "/usr/bin/python3" } true
    (Or.inr (Or.inr (Or.inl ⟨rfl, 3, rfl⟩)))
    (by decide)

/-! ## C1: discovery ordering precedence -/

/-- All candidates the scan visits, in search-path enumeration order: the
pattern-matching executables of each directory, directories in order. -/
def candidatesOf (pattern : String → Bool) (paths : List (List DirEntry)) : List String :=
  (paths.map (path_exe_finder pattern)).flatten

/-- A candidate is satisfying when probing it yields facts that satisfy the
spec (this scan always uses `strict = True`). -/
def probeSatisfies (probe : String → Option PythonInfo) (spec : PythonSpec) (exe : String) :
    Bool :=
  match probe exe with
  | some info => info.satisfies spec true
  | none => false

theorem firstSatisfying_eq_find? (probe : String → Option PythonInfo) (spec : PythonSpec) :
    ∀ l : List String,
      firstSatisfying probe spec l = (l.find? (probeSatisfies probe spec)).bind probe
  | [] => rfl
  | exe :: rest => by
    simp only [firstSatisfying, List.find?]
    cases h : probe exe with
    | none =>
      simp [probeSatisfies, h, firstSatisfying_eq_find? probe spec rest]
    | some info =>
      cases hs : info.satisfies spec true with
      | true => simp [probeSatisfies, h, hs]
      | false => simp [probeSatisfies, h, hs, firstSatisfying_eq_find? probe spec rest]

theorem firstSatisfying_append (probe : String → Option PythonInfo) (spec : PythonSpec) :
    ∀ l₁ l₂ : List String,
      firstSatisfying probe spec (l₁ ++ l₂) =
        match firstSatisfying probe spec l₁ with
        | some info => some info
        | none => firstSatisfying probe spec l₂
  | [], _ => rfl
  | exe :: rest, l₂ => by
    simp only [List.cons_append, firstSatisfying]
    cases probe exe with
    | none => exact firstSatisfying_append probe spec rest l₂
    | some info =>
      cases h : info.satisfies spec true <;>
        simp [h, firstSatisfying_append probe spec rest l₂]

theorem searchPathDirs_eq_flat (probe : String → Option PythonInfo) (pattern : String → Bool)
    (spec : PythonSpec) :
    ∀ paths : List (List DirEntry),
      searchPathDirs probe pattern spec paths =
        firstSatisfying probe spec (candidatesOf pattern paths)
  | [] => rfl
  | dir :: rest => by
    simp only [searchPathDirs, candidatesOf, List.map_cons, List.flatten_cons]
    rw [firstSatisfying_append probe spec]
    cases h : firstSatisfying probe spec (path_exe_finder pattern dir) with
    | some info => rfl
    | none => exact searchPathDirs_eq_flat probe pattern spec rest

/-- C1: Discovery ordering precedence. For a spec with no explicit path,
`get_interpreter` returns exactly the probe result of the first candidate —
in search-path enumeration order over the pattern-matching executables —
whose probed facts satisfy the spec (so no candidate of a later directory is
returned while an earlier satisfying one exists), and returns `none`, not an
error, when no candidate satisfies. -/
theorem get_interpreter_ordering (probe : String → Option PythonInfo)
    (pathExists pattern : String → Bool) (spec : PythonSpec) (paths : List (List DirEntry))
    (hpath : spec.path = none) :
    get_interpreter probe pathExists pattern spec paths =
      (match (candidatesOf pattern paths).find? (probeSatisfies probe spec) with
       | some exe => probe exe
       | none => none) ∧
    ((∀ exe ∈ candidatesOf pattern paths, probeSatisfies probe spec exe = false) →
      get_interpreter probe pathExists pattern spec paths = none) := by
  have hmain : get_interpreter probe pathExists pattern spec paths =
      (match (candidatesOf pattern paths).find? (probeSatisfies probe spec) with
       | some exe => probe exe
       | none => none) := by
    unfold get_interpreter
    rw [hpath]
    rw [searchPathDirs_eq_flat, firstSatisfying_eq_find?]
    cases (candidatesOf pattern paths).find? (probeSatisfies probe spec) <;> simp
  refine ⟨hmain, fun hnone => ?_⟩
  rw [hmain]
  rw [List.find?_eq_none.mpr fun exe hm => by simp [hnone exe hm]]

/-- Witness for C1: two `PATH` directories each holding a matching `python3`;
the probe satisfies the spec only for the second directory's interpreter, and
`get_interpreter` returns precisely that one (the first satisfying candidate
in enumeration order). -/
theorem get_interpreter_ordering_witness :
    get_interpreter
      (fun exe => if exe == "python3" then
        some { implementation := "CPython", version_info := ⟨some 3, some 10, some 0⟩,
               architecture := 64, executable := "python3" }
        else if exe == "python3.11" then
        some { implementation := "CPython", version_info := ⟨some 3, some 11, some 2⟩,
               architecture := 64, executable := "python3.11" }
        else none)
      (fun _ => false)
      (fun name => name == "python3" || name == "python3.11")
      { implementation := none, major := some 3, minor := some 11, micro := none,
        architecture := none, path := none }
      [[⟨"python3", false, true, false⟩], [⟨"python3.11", false, true, false⟩]] =
      some { implementation := "CPython", version_info := ⟨some 3, some 11, some 2⟩,
             architecture := 64, executable := "python3.11" } := by
  have h := (get_interpreter_ordering
    (fun exe => if exe == "python3" then
      some { implementation := "CPython", version_info := ⟨some 3, some 10, some 0⟩,
             architecture := 64, executable := "python3" }
      else if exe == "python3.11" then
      some { implementation := "CPython", version_info := ⟨some 3, some 11, some 2⟩,
             architecture := 64, executable := "python3.11" }
      else none)
    (fun _ => false)
    (fun name => name == "python3" || name == "python3.11")
    { implementation := none, major := some 3, minor := some 11, micro := none,
      architecture := none, path := none }
    [[⟨"python3", false, true, false⟩], [⟨"python3.11", false, true, false⟩]] rfl).1
  rw [h]
  decide

/-! ## C6: `discover_wheels` order -/

/-- Python-faithfulness domain for wheel folders: every `.whl` file of the
distribution has at least two hyphen-delimited stem fields. Outside it the
source raises `IndexError` inside `sorted(key=attrgetter('version'))`. -/
def wfFolder (distribution : String) (folder : List PyPath) : Bool :=
  folder.all fun p =>
    !(pathSuffix p == ".whl") || !((Wheel.mk p).name == distribution) || wheelWellFormed p

/-- C6 counterexample: with wheels of versions `9.0` and `10.0` of the same
distribution in one folder, `discover_wheels` sorts by version *string*
descending and returns the `9.0` wheel first, although `10.0` is the
numerically newest version — the output is not "newest version first". -/
theorem discover_wheels_not_newest_first :
    (discover_wheels [⟨"foo-9.0-py3-none-any.whl"⟩, ⟨"foo-10.0-py3-none-any.whl"⟩] "foo").map
      Wheel.filename = ["foo-9.0-py3-none-any.whl", "foo-10.0-py3-none-any.whl"] ∧
    numericVersionLt (numericVersion "9.0") (numericVersion "10.0") = true ∧
    newestFirstNumeric
      (discover_wheels [⟨"foo-9.0-py3-none-any.whl"⟩, ⟨"foo-10.0-py3-none-any.whl"⟩] "foo") =
      false :=
  ⟨by decide, by decide, by decide⟩

/-- C6 amended: on folders in the faithfulness domain, `discover_wheels`
returns exactly the `.whl` files whose first hyphen-delimited stem field
equals the distribution name (as a permutation of that filtered list), in
descending version-*string* (lexicographic) order — which agrees with
"newest first" only when string order matches numeric order. -/
theorem discover_wheels_filter_sorted (folder : List PyPath) (distribution : String)
    (_hwf : wfFolder distribution folder = true) :
    (discover_wheels folder distribution).Perm
      (((folder.filter fun p => pathSuffix p == ".whl").map Wheel.mk).filter
        fun w => w.name == distribution) ∧
    List.Sorted wheelVersionDescR (discover_wheels folder distribution) := by
  unfold discover_wheels
  exact ⟨List.perm_insertionSort _ _, List.sorted_insertionSort _ _⟩

/-- Witness for C6's amended theorem at a concrete folder. -/
theorem discover_wheels_filter_sorted_witness :
    (discover_wheels [⟨"foo-9.0-py3-none-any.whl"⟩, ⟨"foo-10.0-py3-none-any.whl"⟩,
        ⟨"bar-1.0-py3-none-any.whl"⟩, ⟨"foo.txt"⟩] "foo").Perm
      ((([⟨"foo-9.0-py3-none-any.whl"⟩, ⟨"foo-10.0-py3-none-any.whl"⟩,
          ⟨"bar-1.0-py3-none-any.whl"⟩, (⟨"foo.txt"⟩ : PyPath)].filter
            fun p => pathSuffix p == ".whl").map Wheel.mk).filter
        fun w => w.name == "foo") ∧
    List.Sorted wheelVersionDescR
      (discover_wheels [⟨"foo-9.0-py3-none-any.whl"⟩, ⟨"foo-10.0-py3-none-any.whl"⟩,
        ⟨"bar-1.0-py3-none-any.whl"⟩, ⟨"foo.txt"⟩] "foo") :=
  discover_wheels_filter_sorted
    [⟨"foo-9.0-py3-none-any.whl"⟩, ⟨"foo-10.0-py3-none-any.whl"⟩,
     ⟨"bar-1.0-py3-none-any.whl"⟩, ⟨"foo.txt"⟩] "foo" (by decide)

/-! ## C2: acquisition tier order -/

/-- A directory contains an exact local match: a `.whl` file of the
distribution whose version field equals the requested version. -/
def dirHasExact (distribution version : String) (dir : List PyPath) : Bool :=
  dir.any fun p =>
    pathSuffix p == ".whl" && (Wheel.mk p).name == distribution &&
      (Wheel.mk p).version? == some version

theorem version?_eq_some_version {p : PyPath} (h : wheelWellFormed p = true) :
    (Wheel.mk p).version? = some ((Wheel.mk p).version) := by
  simp only [wheelWellFormed, decide_eq_true_eq] at h
  cases hg : (Wheel.mk p).version? with
  | none =>
    simp only [Wheel.version?, Wheel.parts, List.get?_eq_none] at hg
    omega
  | some x => simp [Wheel.version, hg]

theorem version_eq_of_version? {w : Wheel} {v : String} (h : w.version? = some v) :
    w.version = v := by
  simp [Wheel.version, h]

theorem mem_discover_wheels {dir : List PyPath} {distribution : String} {w : Wheel} :
    w ∈ discover_wheels dir distribution ↔
      (∃ q ∈ dir, (pathSuffix q == ".whl") = true ∧ Wheel.mk q = w) ∧
        (w.name == distribution) = true := by
  simp only [discover_wheels, List.mem_insertionSort, List.mem_filter, List.mem_map,
    List.mem_filter]
  constructor
  · rintro ⟨⟨q, ⟨hq, hsuf⟩, rfl⟩, hname⟩
    exact ⟨⟨q, hq, hsuf, rfl⟩, hname⟩
  · rintro ⟨⟨q, hq, hsuf, rfl⟩, hname⟩
    exact ⟨⟨q, ⟨hq, hsuf⟩, rfl⟩, hname⟩

theorem firstExactMatch_eq_some :
    ∀ {ws : List Wheel} {v : String} {p : PyPath},
      firstExactMatch v ws = some p → ∃ w ∈ ws, w.version = v ∧ w.path = p := by
  intro ws
  induction ws with
  | nil => intro v p h; simp [firstExactMatch] at h
  | cons w ws ih =>
    intro v p h
    simp only [firstExactMatch] at h
    cases hv : w.version == v with
    | true =>
      rw [if_pos hv] at h
      exact ⟨w, List.mem_cons_self w ws, by simpa using hv, by injection h⟩
    | false =>
      rw [if_neg (by simp [hv])] at h
      obtain ⟨w', hw', hv', hp'⟩ := ih h
      exact ⟨w', List.mem_cons_of_mem w hw', hv', hp'⟩

theorem firstExactMatch_isSome :
    ∀ {ws : List Wheel} {v : String}, (∃ w ∈ ws, w.version = v) →
      (firstExactMatch v ws).isSome = true := by
  intro ws
  induction ws with
  | nil => rintro v ⟨w, hw, _⟩; simp at hw
  | cons w ws ih =>
    rintro v ⟨w', hw', hv'⟩
    simp only [firstExactMatch]
    rcases List.mem_cons.mp hw' with rfl | hmem
    · simp [hv']
    · cases hv : w.version == v with
      | true => simp [hv]
      | false =>
        rw [if_neg (by simp [hv])]
        exact ih ⟨w', hmem, hv'⟩

/-- Under well-formedness, a directory's local scan hits iff the directory has
an exact match (the inner two loops of `get_wheel` over one directory). -/
theorem firstExactMatch_discover_eq_some {dir : List PyPath} {distribution version : String}
    (hwf : wfFolder distribution dir = true) {p : PyPath}
    (h : firstExactMatch version (discover_wheels dir distribution) = some p) :
    p ∈ dir ∧ (pathSuffix p == ".whl") = true ∧ (Wheel.mk p).name = distribution ∧
      (Wheel.mk p).version? = some version := by
  obtain ⟨w, hw, hv, hp⟩ := firstExactMatch_eq_some h
  obtain ⟨⟨q, hq, hsuf, rfl⟩, hname⟩ := mem_discover_wheels.mp hw
  have hqp : q = p := hp
  subst hqp
  have hwfq : wheelWellFormed q = true := by
    have := List.all_eq_true.mp hwf q hq
    simpa [hsuf, hname] using this
  refine ⟨hq, hsuf, by simpa using hname, ?_⟩
  rw [version?_eq_some_version hwfq, hv]

theorem dirHasExact_of_hit {dir : List PyPath} {distribution version : String}
    {p : PyPath} (hq : p ∈ dir) (hsuf : (pathSuffix p == ".whl") = true)
    (hname : (Wheel.mk p).name = distribution)
    (hver : (Wheel.mk p).version? = some version) :
    dirHasExact distribution version dir = true := by
  simp only [dirHasExact, List.any_eq_true]
  exact ⟨p, hq, by simp [hsuf, hname, hver]⟩

theorem firstExactMatch_discover_isSome {dir : List PyPath} {distribution version : String}
    (hd : dirHasExact distribution version dir = true) :
    (firstExactMatch version (discover_wheels dir distribution)).isSome = true := by
  simp only [dirHasExact, List.any_eq_true] at hd
  obtain ⟨q, hq, hmatch⟩ := hd
  simp only [Bool.and_eq_true, beq_iff_eq] at hmatch
  obtain ⟨⟨hsuf, hname⟩, hver⟩ := hmatch
  refine firstExactMatch_isSome ⟨Wheel.mk q, ?_, version_eq_of_version? hver⟩
  exact mem_discover_wheels.mpr ⟨⟨q, hq, by simp [hsuf], rfl⟩, by simp [hname]⟩

/-- Under well-formedness, a directory with no exact match contributes nothing
(the scan falls through to the next directory). -/
theorem firstExactMatch_discover_eq_none {dir : List PyPath} {distribution version : String}
    (hwf : wfFolder distribution dir = true)
    (hd : dirHasExact distribution version dir = false) :
    firstExactMatch version (discover_wheels dir distribution) = none := by
  cases h : firstExactMatch version (discover_wheels dir distribution) with
  | none => rfl
  | some p =>
    obtain ⟨hq, hsuf, hname, hver⟩ := firstExactMatch_discover_eq_some hwf h
    rw [dirHasExact_of_hit hq hsuf hname hver] at hd
    cases hd

/-- The local tier hits exactly when some search directory has an exact match. -/
theorem searchLocal_isSome_iff {distribution version : String} :
    ∀ {searchDirs : List (List PyPath)},
      (∀ dir ∈ searchDirs, wfFolder distribution dir = true) →
      ((searchLocal distribution version searchDirs).isSome = true ↔
        searchDirs.any (dirHasExact distribution version) = true) := by
  intro searchDirs
  induction searchDirs with
  | nil => intro _; simp [searchLocal]
  | cons d ds ih =>
    intro hwf
    have hwfd := hwf d (List.mem_cons_self d ds)
    have hwfds := fun dir hm => hwf dir (List.mem_cons_of_mem d hm)
    simp only [searchLocal, List.any_cons]
    cases hd : dirHasExact distribution version d with
    | true =>
      rw [Bool.true_or]
      have := firstExactMatch_discover_isSome hd
      cases hfe : firstExactMatch version (discover_wheels d distribution) with
      | none => rw [hfe] at this; cases this
      | some p => simp
    | false =>
      rw [firstExactMatch_discover_eq_none hwfd hd, Bool.false_or]
      exact ih hwfds

/-- The local tier returns a path of the first directory holding an exact
match, and that path is an exact match there. -/
theorem searchLocal_first_dir {distribution version : String} :
    ∀ {searchDirs : List (List PyPath)} {p : PyPath},
      (∀ dir ∈ searchDirs, wfFolder distribution dir = true) →
      searchLocal distribution version searchDirs = some p →
      ∃ pre d post, searchDirs = pre ++ d :: post ∧
        (∀ d' ∈ pre, dirHasExact distribution version d' = false) ∧
        p ∈ d ∧ (pathSuffix p == ".whl") = true ∧ (Wheel.mk p).name = distribution ∧
        (Wheel.mk p).version? = some version := by
  intro searchDirs
  induction searchDirs with
  | nil => intro p _ h; simp [searchLocal] at h
  | cons d ds ih =>
    intro p hwf h
    have hwfd := hwf d (List.mem_cons_self d ds)
    have hwfds := fun dir hm => hwf dir (List.mem_cons_of_mem d hm)
    simp only [searchLocal] at h
    cases hfe : firstExactMatch version (discover_wheels d distribution) with
    | some q =>
      rw [hfe] at h
      injection h with h
      subst h
      obtain ⟨hq, hsuf, hname, hver⟩ := firstExactMatch_discover_eq_some hwfd hfe
      exact ⟨[], d, ds, rfl, by simp, hq, hsuf, hname, hver⟩
    | none =>
      rw [hfe] at h
      obtain ⟨pre, d', post, hsplit, hpre, hrest⟩ := ih hwfds h
      refine ⟨d :: pre, d', post, by simp [hsplit], ?_, hrest⟩
      intro d'' hmem
      rcases List.mem_cons.mp hmem with rfl | hmem'
      · cases hd : dirHasExact distribution version d'' with
        | false => rfl
        | true =>
          have := firstExactMatch_discover_isSome hd
          rw [hfe] at this
          cases this
      · exact hpre d'' hmem'

/-- C2: Acquisition tier order. On well-formed search directories: the
download tier runs only when downloading is allowed and the local tier
missed; a local hit makes `get_wheel` return that local path with no download
attempted (the result does not depend on the download or bundle oracles), and
the hit is an exact name/version match located in the first directory that
has one; when the local tier misses everywhere, downloading is disallowed or
misses, and the bundle misses, the result is not-found (`none`). -/
theorem get_wheel_tier_order (distribution version : String)
    (searchDirs : List (List PyPath)) (download : Bool)
    (downloadResult bundleResult : Option PyPath)
    (hwf : ∀ dir ∈ searchDirs, wfFolder distribution dir = true) :
    ((get_wheel distribution version searchDirs download downloadResult bundleResult).2 = true →
      download = true ∧ searchLocal distribution version searchDirs = none) ∧
    (∀ p, searchLocal distribution version searchDirs = some p →
      get_wheel distribution version searchDirs download downloadResult bundleResult =
        (some p, false) ∧
      ∃ pre d post, searchDirs = pre ++ d :: post ∧
        (∀ d' ∈ pre, dirHasExact distribution version d' = false) ∧
        p ∈ d ∧ (pathSuffix p == ".whl") = true ∧ (Wheel.mk p).name = distribution ∧
        (Wheel.mk p).version? = some version) ∧
    ((searchLocal distribution version searchDirs).isSome = true ↔
      searchDirs.any (dirHasExact distribution version) = true) ∧
    (searchDirs.any (dirHasExact distribution version) = false →
      (download = false ∨ downloadResult = none) → bundleResult = none →
      (get_wheel distribution version searchDirs download downloadResult bundleResult).1 =
        none) := by
  refine ⟨?_, ?_, searchLocal_isSome_iff hwf, ?_⟩
  · intro h2
    unfold get_wheel at h2
    cases hl : searchLocal distribution version searchDirs with
    | some p => rw [hl] at h2; cases h2
    | none =>
      rw [hl] at h2
      cases download with
      | false => simp at h2
      | true => exact ⟨rfl, rfl⟩
  · intro p hl
    refine ⟨?_, searchLocal_first_dir hwf hl⟩
    unfold get_wheel
    rw [hl]
  · intro hany hdl hb
    have hl : searchLocal distribution version searchDirs = none := by
      cases hls : searchLocal distribution version searchDirs with
      | none => rfl
      | some p =>
        have : (searchLocal distribution version searchDirs).isSome = true := by
          rw [hls]; rfl
        rw [(searchLocal_isSome_iff hwf).mp this] at hany
        cases hany
    unfold get_wheel
    rw [hl, hb]
    rcases hdl with rfl | rfl
    · rfl
    · cases download <;> rfl

/-- Witness for C2: one concrete scenario per hypothesis — a `pip==23.0`
wheel present in the second search directory is returned locally with no
download attempted, and the all-tiers-miss scenario returns `none`. -/
theorem get_wheel_tier_order_witness :
    (get_wheel "pip" "23.0" [[⟨"setuptools-68.0.0-py3-none-any.whl"⟩],
        [⟨"pip-23.0-py3-none-any.whl"⟩]] true
        (some ⟨"pip-23.0-downloaded.whl"⟩) (some ⟨"pip-23.0-bundled.whl"⟩) =
      (some ⟨"pip-23.0-py3-none-any.whl"⟩, false)) ∧
    (get_wheel "pip" "23.0" [] false none none).1 = none := by
  constructor
  · exact ((get_wheel_tier_order "pip" "23.0"
      [[⟨"setuptools-68.0.0-py3-none-any.whl"⟩], [⟨"pip-23.0-py3-none-any.whl"⟩]] true
      (some ⟨"pip-23.0-downloaded.whl"⟩) (some ⟨"pip-23.0-bundled.whl"⟩)
      (by decide)).2.1 ⟨"pip-23.0-py3-none-any.whl"⟩ (by decide)).1
  · exact (get_wheel_tier_order "pip" "23.0" [] false none none
      (by simp)).2.2.2 (by decide) (Or.inl rfl) rfl

/-! ## C4: probe caching -/

/-- C4: Probe caching contract. Starting from a cache with no entry for `exe`,
probing `exe` twice (without `ignore_cache`) performs exactly one probe
attempt in total — the first call does the single attempt, the second is a
cache hit with zero attempts — and the second call yields the cached outcome:
the cached facts (with `executable` rewritten to `exe`) when the first
attempt succeeded, and for a recorded failure a raised error or `None`
according to the second caller's `raise_on_error` flag. The cache is keyed by
the `exe` argument. -/
theorem from_exe_single_probe (exe : String) (cache : ExeCache)
    (construct₁ construct₂ : Except Unit PythonInfo) (roe₁ roe₂ : Bool)
    (hmiss : cache.lookup exe = none) :
    (PythonInfo.from_exe construct₁ exe roe₁ false cache).probeAttempts = 1 ∧
    (PythonInfo.from_exe construct₂ exe roe₂ false
      (PythonInfo.from_exe construct₁ exe roe₁ false cache).cache).probeAttempts = 0 ∧
    (∀ info, construct₁ = .ok info →
      (PythonInfo.from_exe construct₂ exe roe₂ false
        (PythonInfo.from_exe construct₁ exe roe₁ false cache).cache).result =
        .ok (some { info with executable := exe })) ∧
    (construct₁ = .error () →
      (roe₂ = true →
        (PythonInfo.from_exe construct₂ exe roe₂ false
          (PythonInfo.from_exe construct₁ exe roe₁ false cache).cache).result = .error ()) ∧
      (roe₂ = false →
        (PythonInfo.from_exe construct₂ exe roe₂ false
          (PythonInfo.from_exe construct₁ exe roe₁ false cache).cache).result = .ok none)) := by
  cases construct₁ with
  | ok info =>
    refine ⟨?_, ?_, ?_, ?_⟩
    · simp [PythonInfo.from_exe, hmiss]
    · simp [PythonInfo.from_exe, hmiss, List.lookup]
    · intro info' hinfo
      injection hinfo with hinfo
      subst hinfo
      simp [PythonInfo.from_exe, hmiss, List.lookup]
    · intro h; cases h
  | error e =>
    refine ⟨?_, ?_, ?_, ?_⟩
    · simp [PythonInfo.from_exe, hmiss]
    · cases roe₂ <;> simp [PythonInfo.from_exe, hmiss, List.lookup]
    · intro info' hinfo; cases hinfo
    · intro _
      constructor <;> intro hroe <;> subst hroe <;>
        simp [PythonInfo.from_exe, hmiss, List.lookup]

/-- Witness for C4: concrete double probe of `/usr/bin/python3` on the empty
cache, for both a successful and a failing first probe. -/
theorem from_exe_single_probe_witness :
    (PythonInfo.from_exe
      (.ok { implementation := "CPython", version_info := ⟨some 3, some 11, some 4⟩,
             architecture := 64, executable := "python3" })
      "/usr/bin/python3" true false []).probeAttempts = 1 ∧
    (PythonInfo.from_exe (.error ()) "/usr/bin/python3" true false
      (PythonInfo.from_exe
        (.ok { implementation := "CPython", version_info := ⟨some 3, some 11, some 4⟩,
               architecture := 64, executable := "python3" })
        "/usr/bin/python3" true false []).cache).result =
      .ok (some { implementation := "CPython", version_info := ⟨some 3, some 11, some 4⟩,
                  architecture := 64, executable := "/usr/bin/python3" }) ∧
    (PythonInfo.from_exe (.error ()) "/usr/bin/python3" false false
      (PythonInfo.from_exe (.error ()) "/usr/bin/python3" true false []).cache).result =
      .ok none := by
  refine ⟨(from_exe_single_probe "/usr/bin/python3" []
      (.ok { implementation := "CPython", version_info := ⟨some 3, some 11, some 4⟩,
             architecture := 64, executable := "python3" })
      (.error ()) true true rfl).1, ?_, ?_⟩
  · exact (from_exe_single_probe "/usr/bin/python3" []
      (.ok { implementation := "CPython", version_info := ⟨some 3, some 11, some 4⟩,
             architecture := 64, executable := "python3" })
      (.error ()) true true rfl).2.2.1 _ rfl
  · exact ((from_exe_single_probe "/usr/bin/python3" []
      (.error ()) (.error ()) true false rfl).2.2.2 rfl).2 rfl

end Virtualenv
